import Mathlib

/-!
Shallow embedding of `src/youtube_hydrator.py` (plex-tools).

The program enriches Plex library items whose filenames embed a YouTube
video id: it extracts the id from the file path, resolves it against the
YouTube API through a persistent read-through cache, composes a sanitized
title, detects which fields (title, summary, publish date) differ, and
applies the mutations in an orchestration loop with per-item failure
tolerance, aggregate counters, and periodic cache saves.

Python strings are modelled as `String` / `List Char`; the JSON cache as an
association list; the YouTube API as a function `String → ProviderResult`;
Plex mutation calls as explicit field edits, with a per-item `editBudget`
modelling at which mutation call the external Plex server raises
(`none` = all calls succeed, `some k` = the k-th call on that item raises);
logging side effects relevant to claims as explicit boolean / list outputs.
-/

namespace PlexTools

/-! ## Dates and datetimes (model of Python `datetime`) -/

/-- A Python `datetime.date`: calendar year, month, day. -/
structure PyDate where
  year : Nat
  month : Nat
  day : Nat
deriving DecidableEq, Repr

/-- A Python `datetime.datetime` as produced by `datetime.fromisoformat`:
wall-clock fields plus an optional fixed UTC offset in minutes
(`none` = naive datetime). -/
structure PyDatetime where
  year : Nat
  month : Nat
  day : Nat
  hour : Nat
  minute : Nat
  second : Nat
  tzOffsetMinutes : Option Int
deriving DecidableEq, Repr

/-- Python `datetime.date()`: the wall-clock calendar date of the datetime,
taken at the datetime's own offset (the offset is ignored, not applied). -/
def PyDatetime.toDate (dt : PyDatetime) : PyDate :=
  ⟨dt.year, dt.month, dt.day⟩

def isLeapYear (y : Nat) : Bool :=
  (y % 4 = 0 && y % 100 ≠ 0) || y % 400 = 0

def daysInMonth (y m : Nat) : Nat :=
  if m = 2 then (if isLeapYear y then 29 else 28)
  else if m = 4 || m = 6 || m = 9 || m = 11 then 30
  else 31

/-! ## ISO-8601 parsing (model of CPython `datetime.fromisoformat`, on the
pre-3.11 grammar `YYYY-MM-DD[<sep>HH[:MM[:SS[.fff[fff]]]][±HH:MM]]`, the
subset relevant to YouTube `publishedAt` strings). -/

def digitVal (c : Char) : Option Nat :=
  if c.isDigit then some (c.toNat - 48) else none

def read2 : List Char → Option (Nat × List Char)
  | a :: b :: rest => do
    let x ← digitVal a
    let y ← digitVal b
    pure (x * 10 + y, rest)
  | _ => none

def read4 : List Char → Option (Nat × List Char)
  | a :: b :: c :: d :: rest => do
    let x ← digitVal a
    let y ← digitVal b
    let z ← digitVal c
    let w ← digitVal d
    pure (x * 1000 + y * 100 + z * 10 + w, rest)
  | _ => none

def expectChar (c : Char) : List Char → Option (List Char)
  | x :: rest => if x = c then some rest else none
  | [] => none

/-- Parse `HH[:MM[:SS[.fff[fff]]]]`, returning (hour, minute, second, rest);
the fractional part is validated (3 or 6 digits) and discarded. -/
def readTime (cs : List Char) : Option (Nat × Nat × Nat × List Char) := do
  let (h, cs1) ← read2 cs
  match cs1 with
  | ':' :: cs2 => do
    let (mi, cs3) ← read2 cs2
    match cs3 with
    | ':' :: cs4 => do
      let (s, cs5) ← read2 cs4
      match cs5 with
      | '.' :: cs6 =>
        let frac := cs6.takeWhile Char.isDigit
        if frac.length = 3 || frac.length = 6 then
          some (h, mi, s, cs6.drop frac.length)
        else none
      | _ => some (h, mi, s, cs5)
    | _ => some (h, mi, 0, cs3)
  | _ => some (h, 0, 0, cs1)

/-- Parse an optional trailing UTC offset `±HH:MM` (nothing = naive). -/
def readOffset : List Char → Option (Option Int)
  | [] => some none
  | c :: rest =>
    if c = '+' || c = '-' then
      match read2 rest with
      | none => none
      | some (oh, cs1) =>
        match expectChar ':' cs1 with
        | none => none
        | some cs2 =>
          match read2 cs2 with
          | none => none
          | some (om, cs3) =>
            let total : Int := oh * 60 + om
            if om < 60 && total < 1440 && cs3 = [] then
              some (some (if c = '-' then -total else total))
            else none
    else none

/-- Model of `datetime.fromisoformat` on a character list. -/
def fromisoformatL (cs : List Char) : Option PyDatetime := do
  let (y, cs1) ← read4 cs
  let cs2 ← expectChar '-' cs1
  let (mo, cs3) ← read2 cs2
  let cs4 ← expectChar '-' cs3
  let (d, cs5) ← read2 cs4
  if 1 ≤ y && 1 ≤ mo && mo ≤ 12 && 1 ≤ d && d ≤ daysInMonth y mo then
    match cs5 with
    | [] => some ⟨y, mo, d, 0, 0, 0, none⟩
    | _sep :: rest => do
      let (h, mi, s, cs6) ← readTime rest
      if h ≤ 23 && mi ≤ 59 && s ≤ 59 then
        let off ← readOffset cs6
        some ⟨y, mo, d, h, mi, s, off⟩
      else none
  else none

/-- Replace every `'Z'` character by the six characters `+00:00`
(model of `str.replace('Z', '+00:00')`). -/
def replaceZ : List Char → List Char
  | [] => []
  | c :: rest =>
    if c = 'Z' then '+' :: '0' :: '0' :: ':' :: '0' :: '0' :: replaceZ rest
    else c :: replaceZ rest

/-- `parse_youtube_date` from the source: empty string yields `None`;
a trailing `'Z'` is rewritten to `'+00:00'` (and any remaining `'Z'` is
replaced too) before `datetime.fromisoformat` is applied. -/
def parse_youtube_date (published_at : String) : Option PyDatetime :=
  let cs := published_at.data
  if cs = [] then none
  else
    let cs1 := if cs.getLast? = some 'Z'
               then cs.dropLast ++ ['+', '0', '0', ':', '0', '0']
               else cs
    fromisoformatL (replaceZ cs1)

/-! ## `sanitize_filename` and `create_new_title` -/

/-- One `str.replace(old, new)` pass where `old` is a single character and
`new` a character list. -/
def replaceCharBy (old : Char) (new : List Char) : List Char → List Char
  | [] => []
  | c :: rest => (if c = old then new else [c]) ++ replaceCharBy old new rest

/-- The twelve sequential replacements of `sanitize_filename`, in source
order. -/
def applyReplacements (l : List Char) : List Char :=
  replaceCharBy '\t' [' '] <|
  replaceCharBy '\r' [' '] <|
  replaceCharBy '\n' [' '] <|
  replaceCharBy '|' ['-'] <|
  replaceCharBy '>' [')'] <|
  replaceCharBy '<' ['('] <|
  replaceCharBy '"' ['\''] <|
  replaceCharBy '?' [] <|
  replaceCharBy '*' [] <|
  replaceCharBy ':' [' ', '-'] <|
  replaceCharBy '\\' ['-'] <|
  replaceCharBy '/' ['-'] l

/-- Python `\s` on the relevant (ASCII) range. -/
def isPySpace (c : Char) : Bool :=
  c = ' ' || c = '\t' || c = '\n' || c = '\r' || c = '\x0b' || c = '\x0c'

/-- Map every whitespace character to a plain space. -/
def normalizeWS (l : List Char) : List Char :=
  l.map (fun c => if isPySpace c then ' ' else c)

/-- Collapse adjacent spaces; together with `normalizeWS` this models
`re.sub(r'\s+', ' ', text)`. -/
def dedupSpaces : List Char → List Char
  | ' ' :: ' ' :: rest => dedupSpaces (' ' :: rest)
  | c :: rest => c :: dedupSpaces rest
  | [] => []

/-- Model of `str.strip()` after whitespace collapsing (only plain spaces
can remain at the ends). -/
def stripEnds (l : List Char) : List Char :=
  ((l.dropWhile (· = ' ')).reverse.dropWhile (· = ' ')).reverse

/-- Length limiting from `sanitize_filename`: above 200 characters the text
is cut to 197 plus `"..."`. -/
def truncate200 (l : List Char) : List Char :=
  if l.length > 200 then l.take 197 ++ ['.', '.', '.'] else l

/-- `sanitize_filename` from the source. -/
def sanitize_filename (text : String) : String :=
  ⟨truncate200 (stripEnds (dedupSpaces (normalizeWS (applyReplacements text.data))))⟩

/-- `create_new_title` from the source: `f"{channel_clean} - {title_clean}"`. -/
def create_new_title (channel_name video_title : String) : String :=
  sanitize_filename channel_name ++ " - " ++ sanitize_filename video_title

/-! ## `extract_youtube_id` -/

/-- The YouTube id alphabet `[a-zA-Z0-9_-]`. -/
def youtubeIDChar (c : Char) : Bool :=
  c.isAlpha || c.isDigit || c = '_' || c = '-'

/-- Try to match `open` + 11 id characters + `close` at the head of the
character list, returning the captured group. -/
def tryBracketAt (openC closeC : Char) : List Char → Option (List Char)
  | c :: rest =>
    if c = openC then
      let tok := rest.take 11
      if tok.length = 11 && tok.all youtubeIDChar && (rest.drop 11).head? = some closeC
      then some tok else none
    else none
  | [] => none

/-- Try to match `_` + 11 id characters + the extension characters at the
head of the character list. -/
def tryUnderscoreExtAt (ext : List Char) : List Char → Option (List Char)
  | c :: rest =>
    if c = '_' then
      let tok := rest.take 11
      if tok.length = 11 && tok.all youtubeIDChar && ((rest.drop 11).take ext.length = ext)
      then some tok else none
    else none
  | [] => none

/-- Leftmost match of a fixed-shape pattern, as `re.search` performs it. -/
def searchFirst (tryHere : List Char → Option (List Char)) : List Char → Option (List Char)
  | [] => none
  | c :: rest =>
    match tryHere (c :: rest) with
    | some t => some t
    | none => searchFirst tryHere rest

def mp4Ext : List Char := ['.', 'm', 'p', '4']
def mkvExt : List Char := ['.', 'm', 'k', 'v']
def aviExt : List Char := ['.', 'a', 'v', 'i']

/-- The five patterns of `extract_youtube_id`, tried in source order; the
first pattern that matches anywhere in the filename wins. -/
def firstRuleMatch (filename : List Char) : Option (List Char) :=
  match searchFirst (tryBracketAt '[' ']') filename with
  | some t => some t
  | none =>
    match searchFirst (tryBracketAt '(' ')') filename with
    | some t => some t
    | none =>
      match searchFirst (tryUnderscoreExtAt mp4Ext) filename with
      | some t => some t
      | none =>
        match searchFirst (tryUnderscoreExtAt mkvExt) filename with
        | some t => some t
        | none => searchFirst (tryUnderscoreExtAt aviExt) filename

/-- `os.path.basename`: the part of the path after the last `'/'`. -/
def basenameL (path : List Char) : List Char :=
  (path.reverse.takeWhile (· ≠ '/')).reverse

/-- `extract_youtube_id` with its logging channel: the boolean is `true`
exactly when the source emits the `"No YouTube ID found"` warning. A
missing (`None`) or empty path returns `None` silently. -/
def extract_youtube_id_logged (file_path : Option String) : Option String × Bool :=
  match file_path with
  | none => (none, false)
  | some s =>
    if s.data = [] then (none, false)
    else
      match firstRuleMatch (basenameL s.data) with
      | some tok => (some ⟨tok⟩, false)
      | none => (none, true)

/-- `extract_youtube_id` from the source (result only). -/
def extract_youtube_id (file_path : Option String) : Option String :=
  (extract_youtube_id_logged file_path).1

/-! ## Metadata cache and provider (`get_youtube_metadata`) -/

/-- The metadata dictionary built from the YouTube API `snippet`. -/
structure YTMetadata where
  title : String
  channel_name : String
  description : String
  published_at : String
deriving DecidableEq, Repr

/-- The in-memory cache: a mapping from video id to metadata, modelled as
an association list with at most one binding per key. -/
abbrev Cache := List (String × YTMetadata)

/-- Dictionary lookup `cache[video_id]` / `video_id in cache`. -/
def cacheLookup : Cache → String → Option YTMetadata
  | [], _ => none
  | (k, v) :: rest, id => if k = id then some v else cacheLookup rest id

/-- `get_cached_metadata` from the source: pure lookup. -/
def get_cached_metadata (cache : Cache) (video_id : String) : Option YTMetadata :=
  cacheLookup cache video_id

/-- `cache_metadata` from the source: `cache[video_id] = metadata`
(replace the binding if present, else add it). -/
def cache_metadata : Cache → String → YTMetadata → Cache
  | [], id, m => [(id, m)]
  | (k, v) :: rest, id, m =>
    if k = id then (id, m) :: rest else (k, v) :: cache_metadata rest id m

/-- Outcome of one YouTube API lookup: a snippet, an empty `items` list
(video not found), or a raised `HttpError`/other exception. -/
inductive ProviderResult where
  | found (m : YTMetadata)
  | notFound
  | apiError
deriving DecidableEq, Repr

/-- The YouTube API within one run: a fixed response per video id. -/
abbrev Provider := String → ProviderResult

/-- `get_youtube_metadata` from the source. Returns the resolved metadata
(or `none`), the cache after the call, and the list of API requests issued
(`[video_id]` on a cache miss, `[]` on a hit). -/
def get_youtube_metadata (provider : Provider) (video_id : String) (cache : Cache) :
    Option YTMetadata × Cache × List String :=
  match get_cached_metadata cache video_id with
  | some m => (some m, cache, [])
  | none =>
    match provider video_id with
    | .found m => (some m, cache_metadata cache video_id m, [video_id])
    | .notFound => (none, cache, [video_id])
    | .apiError => (none, cache, [video_id])

/-! ## Library items and the change/apply logic of `process_library_items` -/

/-- A Plex library item as the orchestrator reads and mutates it.
`mediaFile` is the file path of the first media part (`none` models
`not item.media or not item.media[0].parts`). `editBudget` models the
external Plex server's behavior on this item's mutation calls: `none`
means every call succeeds, `some k` means the k-th mutation call raised
(earlier calls succeeded and stay applied). -/
structure PlexItem where
  mediaFile : Option String
  title : String
  summary : String
  originallyAvailableAt : Option PyDate
  editBudget : Option Nat
deriving DecidableEq, Repr

/-- The per-item change decision (lines 376-393 of the source). -/
structure Decision where
  titleChanged : Bool
  summaryChanged : Bool
  dateChanged : Bool
deriving DecidableEq, Repr

/-- The change detection of `process_library_items`: exact string
comparison for title and summary; for the date, an unparsable or empty
`published_at` yields `false`, a missing item date yields `true`, and
otherwise the wall-clock calendar dates are compared. -/
def detect (item : PlexItem) (metadata : YTMetadata) : Decision :=
  let new_title := create_new_title metadata.channel_name metadata.title
  let current_summary := item.summary
  let video_description := metadata.description
  let youtube_publish_date := parse_youtube_date metadata.published_at
  let current_date := item.originallyAvailableAt
  let title_changed : Bool := decide (item.title ≠ new_title)
  let summary_changed : Bool := decide (current_summary ≠ video_description)
  let date_changed : Bool :=
    match youtube_publish_date with
    | none => false
    | some dt =>
      match current_date with
      | none => true
      | some d => decide (dt.toDate ≠ d)
  ⟨title_changed, summary_changed, date_changed⟩

/-- A mutation call issued to the Plex item. -/
inductive EditCall where
  | editTitle (s : String)
  | editSummary (s : String)
  | editDate (d : PyDate)
deriving DecidableEq, Repr

/-- The mutation calls the source issues in live mode, in source order:
title when changed; summary when changed and the description is non-empty;
publish date when changed and a parsed date exists. -/
def plannedEdits (item : PlexItem) (metadata : YTMetadata) : List EditCall :=
  let d := detect item metadata
  let new_title := create_new_title metadata.channel_name metadata.title
  (if d.titleChanged then [EditCall.editTitle new_title] else []) ++
  (if d.summaryChanged && decide (metadata.description ≠ "")
   then [EditCall.editSummary metadata.description] else []) ++
  (match parse_youtube_date metadata.published_at with
   | some dt => if d.dateChanged then [EditCall.editDate dt.toDate] else []
   | none => [])

/-- Effect of one successful mutation call on the item. -/
def applyEdit (item : PlexItem) : EditCall → PlexItem
  | .editTitle s => { item with title := s }
  | .editSummary s => { item with summary := s }
  | .editDate d => { item with originallyAvailableAt := some d }

/-- Issue the mutation calls in order against the item's edit budget.
Returns the item after the successful calls, whether all calls succeeded
(an exception stops the sequence but keeps earlier effects), and the list
of calls actually issued (including the raising one). -/
def runEdits (item : PlexItem) (budget : Option Nat) : List EditCall → PlexItem × Bool × List EditCall
  | [] => (item, true, [])
  | e :: rest =>
    match budget with
    | some 0 => (item, false, [e])
    | some (k + 1) =>
      let r := runEdits (applyEdit item e) (some k) rest
      (r.1, r.2.1, e :: r.2.2)
    | none =>
      let r := runEdits (applyEdit item e) none rest
      (r.1, r.2.1, e :: r.2.2)

/-- The decided-item stage (lines 395-426): in live mode with any change,
issue the mutation calls (an exception is caught: the item counts as
failed, earlier effects stay); in dry-run mode with any change, count a
would-update; otherwise nothing. Returns the item afterwards, the
`updated_count` increment, the `failed_count` increment, and the issued
mutation calls. -/
def applyStage (dry_run : Bool) (item : PlexItem) (metadata : YTMetadata) :
    PlexItem × Nat × Nat × List EditCall :=
  let d := detect item metadata
  let anyChange := d.titleChanged || d.summaryChanged || d.dateChanged
  if !dry_run && anyChange then
    let edits := plannedEdits item metadata
    let r := runEdits item item.editBudget edits
    (r.1, if r.2.1 && !edits.isEmpty then 1 else 0, if r.2.1 then 0 else 1, r.2.2)
  else if dry_run && anyChange then
    (item, 1, 0, [])
  else (item, 0, 0, [])

/-! ## The orchestration loop -/

/-- The loop state of `process_library_items`: the cache, the aggregate
counters, and explicit logs of the side channels the claims talk about
(API requests issued, mutation calls issued, decisions computed). -/
structure RunState where
  cache : Cache
  cache_saves : Nat
  processed_count : Nat
  updated_count : Nat
  failed_count : Nat
  cache_hits : Nat
  api_calls : Nat
  providerCallLog : List String
  editCallLog : List EditCall
  decisionLog : List Decision
deriving DecidableEq, Repr

/-- Tail of one loop iteration after metadata was resolved: decide, apply
or report, bump `processed_count`, and save the cache when
`processed_count` reaches a multiple of 10. -/
def finishItem (dry_run : Bool) (st : RunState) (item : PlexItem) (metadata : YTMetadata)
    (cache' : Cache) (newCalls : List String) (hitInc apiInc : Nat) : RunState × PlexItem :=
  let d := detect item metadata
  let r := applyStage dry_run item metadata
  let processed' := st.processed_count + 1
  ({ cache := cache',
     cache_saves := if processed' % 10 = 0 then st.cache_saves + 1 else st.cache_saves,
     processed_count := processed',
     updated_count := st.updated_count + r.2.1,
     failed_count := st.failed_count + r.2.2.1,
     cache_hits := st.cache_hits + hitInc,
     api_calls := st.api_calls + apiInc,
     providerCallLog := st.providerCallLog ++ newCalls,
     editCallLog := st.editCallLog ++ r.2.2.2,
     decisionLog := st.decisionLog ++ [d] }, r.1)

/-- One iteration of the `for item in items` loop (lines 317-442).
Items with no media file, no extractable id, or unavailable metadata are
counted as failed and skipped (`continue`); a mutation exception is caught
at the item boundary and the item still reaches `processed_count`. -/
def processItem (provider : Provider) (dry_run : Bool) (st : RunState) (item : PlexItem) :
    RunState × PlexItem :=
  match item.mediaFile with
  | none => ({ st with failed_count := st.failed_count + 1 }, item)
  | some file_path =>
    match extract_youtube_id (some file_path) with
    | none => ({ st with failed_count := st.failed_count + 1 }, item)
    | some youtube_id =>
      match get_cached_metadata st.cache youtube_id with
      | some m => finishItem dry_run st item m st.cache [] 1 0
      | none =>
        match get_youtube_metadata provider youtube_id st.cache with
        | (some m, cache', calls) => finishItem dry_run st item m cache' calls 0 1
        | (none, cache', calls) =>
          ({ st with cache := cache',
                     failed_count := st.failed_count + 1,
                     providerCallLog := st.providerCallLog ++ calls }, item)

/-- The whole item loop, threading the state and collecting the items as
they stand after their mutations. -/
def runLoop (provider : Provider) (dry_run : Bool) : RunState → List PlexItem → RunState × List PlexItem
  | st, [] => (st, [])
  | st, item :: rest =>
    let r := processItem provider dry_run st item
    let rr := runLoop provider dry_run r.1 rest
    (rr.1, r.2 :: rr.2)

/-- Loop state at entry of `process_library_items`: the loaded cache,
zeroed counters and empty logs. -/
def initState (cache : Cache) : RunState :=
  ⟨cache, 0, 0, 0, 0, 0, 0, [], [], []⟩

/-- `process_library_items` over a library: run the loop and perform the
unconditional final cache save. -/
def process_library_items (provider : Provider) (dry_run : Bool) (cache0 : Cache)
    (items : List PlexItem) : RunState × List PlexItem :=
  let r := runLoop provider dry_run (initState cache0) items
  ({ r.1 with cache_saves := r.1.cache_saves + 1 }, r.2)

/-! ## Calendar arithmetic, for stating the UTC-normalized date reading -/

/-- Days since 1970-01-01 of a proleptic Gregorian calendar date
(standard civil-from-days inverse, Hinnant's algorithm). -/
def daysFromCivil (y m d : Int) : Int :=
  let y' : Int := if m ≤ 2 then y - 1 else y
  let era : Int := y'.fdiv 400
  let yoe : Int := y' - era * 400
  let mp : Int := if m ≤ 2 then m + 9 else m - 3
  let doy : Int := (153 * mp + 2).fdiv 5 + d - 1
  let doe : Int := yoe * 365 + yoe.fdiv 4 - yoe.fdiv 100 + doy
  era * 146097 + doe - 719468

def PyDate.dayNumber (d : PyDate) : Int :=
  daysFromCivil d.year d.month d.day

/-- The day number of the instant's UTC calendar date: wall-clock seconds
minus the UTC offset, floored to days. A naive datetime counts as offset 0. -/
def PyDatetime.utcDayNumber (dt : PyDatetime) : Int :=
  let wallSeconds : Int :=
    daysFromCivil dt.year dt.month dt.day * 86400 +
      (dt.hour : Int) * 3600 + (dt.minute : Int) * 60 + (dt.second : Int)
  (wallSeconds - (dt.tzOffsetMinutes.getD 0) * 60).fdiv 86400

/-- The `dateChanged` flag as the specification words it (refinement model
of the spec sentence, for comparison with the code's `detect`): unparsable
`publishedAt` gives `false`; a missing item date gives `true`; otherwise
the parsed timestamp is normalized to UTC before its date component is
compared with the item's date. -/
def dateChangedSpecUTC (item : PlexItem) (metadata : YTMetadata) : Bool :=
  match parse_youtube_date metadata.published_at with
  | none => false
  | some dt =>
    match item.originallyAvailableAt with
    | none => true
    | some d => decide (dt.utcDayNumber ≠ d.dayNumber)

/-- The `dateChanged` flag the code actually computes, as a standalone
formula: unparsable `publishedAt` gives `false`; a missing item date gives
`true`; otherwise the parsed timestamp's wall-clock calendar date (its
offset ignored, not applied) is compared with the item's date. -/
def dateChangedWall (item : PlexItem) (metadata : YTMetadata) : Bool :=
  match parse_youtube_date metadata.published_at with
  | none => false
  | some dt =>
    match item.originallyAvailableAt with
    | none => true
    | some d => decide (dt.toDate ≠ d)

/-! ## Concrete libraries used as test inputs -/

/-- An item with no media file: it fails before extraction. -/
def noMediaItem : PlexItem := ⟨none, "t", "s", none, none⟩

/-- A provider with no data: every lookup reports not-found. -/
def emptyProvider : Provider := fun _ => ProviderResult.notFound

def demoMeta : YTMetadata := ⟨"Video", "Chan", "desc", ""⟩

def demoProvider : Provider := fun _ => ProviderResult.found demoMeta

/-- An item whose filename carries a bracketed id and whose mutation calls
all succeed. -/
def demoItem : PlexItem := ⟨some "a [abcdefghijk].mp4", "old", "other", none, none⟩

/-- The same item, but its second mutation call (the summary edit) raises. -/
def demoFailItem : PlexItem := { demoItem with editBudget := some 1 }

/-- A ten-item library whose fifth item throws during mutation. -/
def demoItems : List PlexItem :=
  [demoItem, demoItem, demoItem, demoItem, demoFailItem,
   demoItem, demoItem, demoItem, demoItem, demoItem]

/-- An item whose summary will stay different from an empty provider
description. -/
def itemC4 : PlexItem := ⟨some "a [abcdefghijk].mp4", "old", "old stuff", none, none⟩

/-- A provider whose description field is empty. -/
def provC4 : Provider := fun _ => ProviderResult.found ⟨"T", "C", "", ""⟩

/-! ## Predicates used to state run-level properties -/

/-- Number of occurrences of an id in a provider-call log. -/
def countOcc (id : String) : List String → Nat
  | [] => 0
  | x :: rest => (if x = id then 1 else 0) + countOcc id rest

/-- An item already carries the field values the metadata record induces:
the composed title; the description as summary whenever the description is
non-empty; the parsed publish date whenever one exists. -/
def Hydrated (item : PlexItem) (m : YTMetadata) : Prop :=
  item.title = create_new_title m.channel_name m.title ∧
  (m.description ≠ "" → item.summary = m.description) ∧
  (∀ dt, parse_youtube_date m.published_at = some dt →
    item.originallyAvailableAt = some dt.toDate)

/-- After a live run with all mutation calls succeeding, every output item
is in one of these states relative to the final cache: no media file; no
extractable id; an id that is uncached and unresolvable with this
provider; or a cached id whose metadata the item is fully hydrated with. -/
def HydratedOrInert (p : Provider) (c : Cache) (item : PlexItem) : Prop :=
  item.mediaFile = none ∨
  (∃ fp, item.mediaFile = some fp ∧ extract_youtube_id (some fp) = none) ∨
  (∃ fp vid, item.mediaFile = some fp ∧ extract_youtube_id (some fp) = some vid ∧
    cacheLookup c vid = none ∧ (p vid = .notFound ∨ p vid = .apiError)) ∨
  (∃ fp vid m, item.mediaFile = some fp ∧ extract_youtube_id (some fp) = some vid ∧
    cacheLookup c vid = some m ∧ Hydrated item m)

/-- How the cache may change across loop steps: existing bindings are
never removed or overwritten, and every new binding is a value the
provider reports as found. -/
def CacheEvolves (p : Provider) (c c' : Cache) : Prop :=
  ∀ id : String,
    (∀ v, cacheLookup c id = some v → cacheLookup c' id = some v) ∧
    (∀ v, cacheLookup c' id = some v → cacheLookup c id = some v ∨ p id = .found v)

def isTitleEdit : EditCall → Bool
  | .editTitle _ => true
  | _ => false

def isSummaryEdit : EditCall → Bool
  | .editSummary _ => true
  | _ => false

def isDateEdit : EditCall → Bool
  | .editDate _ => true
  | _ => false

/-! ## Theorems -/

/-! ### Case equations for one loop iteration -/

theorem processItem_no_media (p : Provider) (dry : Bool) (st : RunState) (item : PlexItem)
    (h : item.mediaFile = none) :
    processItem p dry st item = ({ st with failed_count := st.failed_count + 1 }, item) := by
  simp only [processItem, h]

theorem processItem_no_id (p : Provider) (dry : Bool) (st : RunState) (item : PlexItem)
    (fp : String) (h1 : item.mediaFile = some fp)
    (h2 : extract_youtube_id (some fp) = none) :
    processItem p dry st item = ({ st with failed_count := st.failed_count + 1 }, item) := by
  simp only [processItem, h1, h2]

theorem processItem_hit (p : Provider) (dry : Bool) (st : RunState) (item : PlexItem)
    (fp vid : String) (m : YTMetadata) (h1 : item.mediaFile = some fp)
    (h2 : extract_youtube_id (some fp) = some vid)
    (h3 : get_cached_metadata st.cache vid = some m) :
    processItem p dry st item = finishItem dry st item m st.cache [] 1 0 := by
  simp only [processItem, h1, h2, h3]

theorem processItem_miss_found (p : Provider) (dry : Bool) (st : RunState) (item : PlexItem)
    (fp vid : String) (m : YTMetadata) (h1 : item.mediaFile = some fp)
    (h2 : extract_youtube_id (some fp) = some vid)
    (h3 : get_cached_metadata st.cache vid = none)
    (h4 : p vid = .found m) :
    processItem p dry st item =
      finishItem dry st item m (cache_metadata st.cache vid m) [vid] 0 1 := by
  simp only [processItem, h1, h2, h3, get_youtube_metadata, h4]

theorem processItem_miss_fail (p : Provider) (dry : Bool) (st : RunState) (item : PlexItem)
    (fp vid : String) (h1 : item.mediaFile = some fp)
    (h2 : extract_youtube_id (some fp) = some vid)
    (h3 : get_cached_metadata st.cache vid = none)
    (h4 : p vid = .notFound ∨ p vid = .apiError) :
    processItem p dry st item =
      ({ st with cache := st.cache,
                 failed_count := st.failed_count + 1,
                 providerCallLog := st.providerCallLog ++ [vid] }, item) := by
  rcases h4 with h4 | h4 <;>
    simp only [processItem, h1, h2, h3, get_youtube_metadata, h4]

theorem runLoop_nil (p : Provider) (dry : Bool) (st : RunState) :
    runLoop p dry st [] = (st, []) := rfl

theorem runLoop_cons (p : Provider) (dry : Bool) (st : RunState)
    (item : PlexItem) (rest : List PlexItem) :
    runLoop p dry st (item :: rest) =
      ((runLoop p dry (processItem p dry st item).1 rest).1,
       (processItem p dry st item).2 ::
         (runLoop p dry (processItem p dry st item).1 rest).2) := rfl

/-- The loop state after a prefix of the library is the loop run over the
prefix: processing `xs ++ ys` passes through the state reached after `xs`. -/
theorem runLoop_append (p : Provider) (dry : Bool) (xs ys : List PlexItem) (st : RunState) :
    runLoop p dry st (xs ++ ys) =
      ((runLoop p dry (runLoop p dry st xs).1 ys).1,
       (runLoop p dry st xs).2 ++ (runLoop p dry (runLoop p dry st xs).1 ys).2) := by
  induction xs generalizing st with
  | nil => simp [runLoop]
  | cons x xs ih => simp [runLoop, ih]

/-! ### The checkpoint counter invariant -/

theorem saves_step (n s : Nat) (h : s = n / 10) :
    (if (n + 1) % 10 = 0 then s + 1 else s) = (n + 1) / 10 := by
  subst h
  split <;> omega

theorem processItem_saves_div (p : Provider) (dry : Bool) (st : RunState) (item : PlexItem)
    (h : st.cache_saves = st.processed_count / 10) :
    (processItem p dry st item).1.cache_saves =
      (processItem p dry st item).1.processed_count / 10 := by
  have hfin : ∀ (m : YTMetadata) (c' : Cache) (nc : List String) (hi ai : Nat),
      (finishItem dry st item m c' nc hi ai).1.cache_saves =
        (finishItem dry st item m c' nc hi ai).1.processed_count / 10 :=
    fun m c' nc hi ai => saves_step st.processed_count st.cache_saves h
  rcases hm : item.mediaFile with _ | fp
  · rw [processItem_no_media p dry st item hm]; exact h
  · rcases he : extract_youtube_id (some fp) with _ | vid
    · rw [processItem_no_id p dry st item fp hm he]; exact h
    · rcases hc : get_cached_metadata st.cache vid with _ | m
      · rcases hp : p vid with m | _ | _
        · rw [processItem_miss_found p dry st item fp vid m hm he hc hp]
          exact hfin m _ _ 0 1
        · rw [processItem_miss_fail p dry st item fp vid hm he hc (Or.inl hp)]; exact h
        · rw [processItem_miss_fail p dry st item fp vid hm he hc (Or.inr hp)]; exact h
      · rw [processItem_hit p dry st item fp vid m hm he hc]
        exact hfin m _ _ 1 0

theorem runLoop_saves_div (p : Provider) (dry : Bool) :
    ∀ (items : List PlexItem) (st : RunState),
      st.cache_saves = st.processed_count / 10 →
      (runLoop p dry st items).1.cache_saves =
        (runLoop p dry st items).1.processed_count / 10
  | [], _, h => h
  | i :: rest, st, h =>
    runLoop_saves_div p dry rest (processItem p dry st i).1
      (processItem_saves_div p dry st i h)

/-- C1, counterexample: in a 20-item library whose items all lack a media
file, after the first 10 items every one of them has reached a terminal
state (all 10 are counted failed, none processed), yet no cache save has
been performed at that point — the run over the full library passes
through exactly that state, so the claimed flush after every 10 terminal
items does not happen. -/
theorem C1_counterexample :
    runLoop emptyProvider false (initState []) (List.replicate 20 noMediaItem) =
      ((runLoop emptyProvider false
          (runLoop emptyProvider false (initState []) (List.replicate 10 noMediaItem)).1
          (List.replicate 10 noMediaItem)).1,
       (runLoop emptyProvider false (initState []) (List.replicate 10 noMediaItem)).2 ++
         (runLoop emptyProvider false
            (runLoop emptyProvider false (initState []) (List.replicate 10 noMediaItem)).1
            (List.replicate 10 noMediaItem)).2) ∧
    (runLoop emptyProvider false (initState []) (List.replicate 10 noMediaItem)).1.failed_count = 10 ∧
    (runLoop emptyProvider false (initState []) (List.replicate 10 noMediaItem)).1.processed_count = 0 ∧
    (runLoop emptyProvider false (initState []) (List.replicate 10 noMediaItem)).1.cache_saves = 0 := by
  refine ⟨?_, by decide, by decide, by decide⟩
  have h := runLoop_append emptyProvider false (List.replicate 10 noMediaItem)
    (List.replicate 10 noMediaItem) (initState [])
  simpa using h

/-- C1, amended: the in-loop checkpoint triggers on `processed_count`,
which counts the items that complete the decision stage (including items
whose mutation call fails) but not the items that fail earlier; at every
point of the loop the number of cache saves equals `processed_count / 10`,
and in particular a save has happened whenever `processed_count` is a
positive multiple of 10. -/
theorem C1_checkpoint_on_processed :
    ∀ (p : Provider) (dry : Bool) (c0 : Cache) (items : List PlexItem),
      (runLoop p dry (initState c0) items).1.cache_saves =
        (runLoop p dry (initState c0) items).1.processed_count / 10 ∧
      (0 < (runLoop p dry (initState c0) items).1.processed_count →
        10 ∣ (runLoop p dry (initState c0) items).1.processed_count →
        1 ≤ (runLoop p dry (initState c0) items).1.cache_saves) := by
  intro p dry c0 items
  have h := runLoop_saves_div p dry items (initState c0) (by simp [initState])
  exact ⟨h, fun hpos hdvd => by rw [h]; omega⟩

/-- C1, witness: in the ten-item demo run all ten items reach the decision
stage, and the invariant yields at least one in-loop cache save. -/
theorem C1_witness :
    1 ≤ (runLoop demoProvider false (initState []) demoItems).1.cache_saves :=
  (C1_checkpoint_on_processed demoProvider false [] demoItems).2 (by decide) (by decide)

/-! ### The mutation-failure path -/

theorem runEdits_nil (item : PlexItem) (budget : Option Nat) :
    runEdits item budget [] = (item, true, []) := rfl

/-- A non-empty planned edit list means some change flag is set. -/
theorem anyChange_of_edits_ne_nil (item : PlexItem) (m : YTMetadata)
    (h : plannedEdits item m ≠ []) :
    ((detect item m).titleChanged || (detect item m).summaryChanged ||
      (detect item m).dateChanged) = true := by
  by_contra hno
  apply h
  simp only [Bool.or_eq_true, not_or, Bool.not_eq_true] at hno
  cases hp : parse_youtube_date m.published_at <;>
    simp [plannedEdits, hp, hno.1.1, hno.1.2, hno.2]

/-- When the mutation call sequence raises: the item ends as the edits
applied before the exception left it, no update is counted, one failure
is counted. -/
theorem applyStage_fail (item : PlexItem) (m : YTMetadata)
    (hfail : (runEdits item item.editBudget (plannedEdits item m)).2.1 = false) :
    (applyStage false item m).1 = (runEdits item item.editBudget (plannedEdits item m)).1 ∧
    (applyStage false item m).2.1 = 0 ∧
    (applyStage false item m).2.2.1 = 1 := by
  have hne : plannedEdits item m ≠ [] := by
    intro h0
    rw [h0, runEdits_nil] at hfail
    exact absurd hfail (by simp)
  have hany := anyChange_of_edits_ne_nil item m hne
  refine ⟨?_, ?_, ?_⟩ <;>
    simp only [applyStage, Bool.not_false, Bool.true_and, hany, if_true, hfail,
      Bool.false_and, if_false] <;> simp

/-- Effect of a caught mutation exception on the loop state: the item is
counted failed and still reaches `processed_count`; its earlier successful
edits stay. -/
theorem finishItem_mutation_fail (st : RunState) (item : PlexItem) (m : YTMetadata)
    (c' : Cache) (nc : List String) (hi ai : Nat)
    (hfail : (runEdits item item.editBudget (plannedEdits item m)).2.1 = false) :
    (finishItem false st item m c' nc hi ai).1.failed_count = st.failed_count + 1 ∧
    (finishItem false st item m c' nc hi ai).1.updated_count = st.updated_count ∧
    (finishItem false st item m c' nc hi ai).1.processed_count = st.processed_count + 1 ∧
    (finishItem false st item m c' nc hi ai).2 =
      (runEdits item item.editBudget (plannedEdits item m)).1 := by
  obtain ⟨ha1, ha2, ha3⟩ := applyStage_fail item m hfail
  refine ⟨?_, ?_, rfl, ?_⟩
  · show st.failed_count + (applyStage false item m).2.2.1 = st.failed_count + 1
    rw [ha3]
  · show st.updated_count + (applyStage false item m).2.1 = st.updated_count
    rw [ha2, Nat.add_zero]
  · show (applyStage false item m).1 = _
    rw [ha1]

/-- An item that resolves metadata `m` (from the cache or from a
successful provider call) and whose mutation sequence raises. -/
theorem processItem_mutation_fail (p : Provider) (st : RunState) (item : PlexItem)
    (fp vid : String) (m : YTMetadata)
    (h1 : item.mediaFile = some fp) (h2 : extract_youtube_id (some fp) = some vid)
    (h3 : get_cached_metadata st.cache vid = some m ∨
      (get_cached_metadata st.cache vid = none ∧ p vid = .found m))
    (hfail : (runEdits item item.editBudget (plannedEdits item m)).2.1 = false) :
    (processItem p false st item).1.failed_count = st.failed_count + 1 ∧
    (processItem p false st item).1.updated_count = st.updated_count ∧
    (processItem p false st item).1.processed_count = st.processed_count + 1 ∧
    (processItem p false st item).2 =
      (runEdits item item.editBudget (plannedEdits item m)).1 := by
  rcases h3 with h3 | ⟨h3, h4⟩
  · rw [processItem_hit p false st item fp vid m h1 h2 h3]
    exact finishItem_mutation_fail st item m st.cache [] 1 0 hfail
  · rw [processItem_miss_found p false st item fp vid m h1 h2 h3 h4]
    exact finishItem_mutation_fail st item m (cache_metadata st.cache vid m) [vid] 0 1 hfail

/-- C8: a mutation-call failure is caught at the item boundary — the item
counts as one failure, no update is counted for it, it still reaches
`processed_count`, and the edits applied before the exception stay applied
(no rollback). In the concrete ten-item demo library whose fifth item
raises on its second mutation call, the run completes all ten items with
exactly one failure, the other nine counted as updated, and the fifth
output item keeps its successfully applied new title while its summary is
left unchanged. -/
theorem C8_partial_failure :
    (∀ (p : Provider) (st : RunState) (item : PlexItem) (fp vid : String) (m : YTMetadata),
      item.mediaFile = some fp →
      extract_youtube_id (some fp) = some vid →
      (get_cached_metadata st.cache vid = some m ∨
        (get_cached_metadata st.cache vid = none ∧ p vid = .found m)) →
      (runEdits item item.editBudget (plannedEdits item m)).2.1 = false →
      (processItem p false st item).1.failed_count = st.failed_count + 1 ∧
      (processItem p false st item).1.updated_count = st.updated_count ∧
      (processItem p false st item).1.processed_count = st.processed_count + 1 ∧
      (processItem p false st item).2 =
        (runEdits item item.editBudget (plannedEdits item m)).1) ∧
    (runLoop demoProvider false (initState []) demoItems).1.failed_count = 1 ∧
    (runLoop demoProvider false (initState []) demoItems).1.updated_count = 9 ∧
    (runLoop demoProvider false (initState []) demoItems).1.processed_count = 10 ∧
    (runLoop demoProvider false (initState []) demoItems).2.length = 10 ∧
    (runLoop demoProvider false (initState []) demoItems).2.get? 4 =
      some { demoFailItem with title := "Chan - Video" } := by
  refine ⟨?_, by decide, by decide, by decide, by decide, by decide⟩
  intro p st item fp vid m h1 h2 h3 hfail
  exact processItem_mutation_fail p st item fp vid m h1 h2 h3 hfail

/-- C8, witness: the general part applied to the failing demo item against
a pre-populated cache. -/
theorem C8_witness :
    (processItem demoProvider false (initState [("abcdefghijk", demoMeta)])
        demoFailItem).1.failed_count = 1 ∧
    (processItem demoProvider false (initState [("abcdefghijk", demoMeta)])
        demoFailItem).1.processed_count = 1 := by
  have h := C8_partial_failure.1 demoProvider (initState [("abcdefghijk", demoMeta)])
    demoFailItem "a [abcdefghijk].mp4" "abcdefghijk" demoMeta
    (by decide) (by decide) (Or.inl (by decide)) (by decide)
  exact ⟨h.1, h.2.2.1⟩

/-- C10: in live mode an item whose mutation call raises increments both
`failed_count` and `processed_count` (it is double counted), while an item
that fails before the mutation stage — no media file, no extractable id,
or no metadata — increments only `failed_count` and never
`processed_count`. -/
theorem C10_double_count :
    (∀ (p : Provider) (st : RunState) (item : PlexItem) (fp vid : String) (m : YTMetadata),
      item.mediaFile = some fp →
      extract_youtube_id (some fp) = some vid →
      (get_cached_metadata st.cache vid = some m ∨
        (get_cached_metadata st.cache vid = none ∧ p vid = .found m)) →
      (runEdits item item.editBudget (plannedEdits item m)).2.1 = false →
      (processItem p false st item).1.failed_count = st.failed_count + 1 ∧
      (processItem p false st item).1.processed_count = st.processed_count + 1) ∧
    (∀ (p : Provider) (st : RunState) (item : PlexItem),
      item.mediaFile = none →
      (processItem p false st item).1.failed_count = st.failed_count + 1 ∧
      (processItem p false st item).1.processed_count = st.processed_count) ∧
    (∀ (p : Provider) (st : RunState) (item : PlexItem) (fp : String),
      item.mediaFile = some fp →
      extract_youtube_id (some fp) = none →
      (processItem p false st item).1.failed_count = st.failed_count + 1 ∧
      (processItem p false st item).1.processed_count = st.processed_count) ∧
    (∀ (p : Provider) (st : RunState) (item : PlexItem) (fp vid : String),
      item.mediaFile = some fp →
      extract_youtube_id (some fp) = some vid →
      get_cached_metadata st.cache vid = none →
      (p vid = .notFound ∨ p vid = .apiError) →
      (processItem p false st item).1.failed_count = st.failed_count + 1 ∧
      (processItem p false st item).1.processed_count = st.processed_count) := by
  refine ⟨?_, ?_, ?_, ?_⟩
  · intro p st item fp vid m h1 h2 h3 hfail
    obtain ⟨ha, _, hc, _⟩ := processItem_mutation_fail p st item fp vid m h1 h2 h3 hfail
    exact ⟨ha, hc⟩
  · intro p st item h
    rw [processItem_no_media p false st item h]
    exact ⟨rfl, rfl⟩
  · intro p st item fp h1 h2
    rw [processItem_no_id p false st item fp h1 h2]
    exact ⟨rfl, rfl⟩
  · intro p st item fp vid h1 h2 h3 h4
    rw [processItem_miss_fail p false st item fp vid h1 h2 h3 h4]
    exact ⟨rfl, rfl⟩

/-- C10, witness: each of the four cases applied at a concrete item. -/
theorem C10_witness :
    ((processItem demoProvider false (initState [("abcdefghijk", demoMeta)])
        demoFailItem).1.failed_count = 1 ∧
      (processItem demoProvider false (initState [("abcdefghijk", demoMeta)])
        demoFailItem).1.processed_count = 1) ∧
    ((processItem emptyProvider false (initState []) noMediaItem).1.failed_count = 1 ∧
      (processItem emptyProvider false (initState []) noMediaItem).1.processed_count = 0) ∧
    ((processItem emptyProvider false (initState []) demoItem).1.failed_count = 1 ∧
      (processItem emptyProvider false (initState []) demoItem).1.processed_count = 0) :=
  ⟨C10_double_count.1 demoProvider (initState [("abcdefghijk", demoMeta)]) demoFailItem
      "a [abcdefghijk].mp4" "abcdefghijk" demoMeta
      (by decide) (by decide) (Or.inl (by decide)) (by decide),
   C10_double_count.2.1 emptyProvider (initState []) noMediaItem (by decide),
   C10_double_count.2.2.2 emptyProvider (initState []) demoItem
      "a [abcdefghijk].mp4" "abcdefghijk" (by decide) (by decide) (by decide)
      (Or.inl (by decide))⟩

/-- C2, counterexample: composing channel `"AB/CD"` with video title
`"Title: One"` does not give `"AB-CD - Title -One"` — the `':' → ' -'`
replacement keeps the original space after the colon. -/
theorem C2_counterexample :
    create_new_title "AB/CD" "Title: One" ≠ "AB-CD - Title -One" := by
  decide

/-- C2, amended: the sanitized channel is `"AB-CD"`, the sanitized title is
`"Title - One"` (space on both sides of the dash), and the composed title
is `"AB-CD - Title - One"`. -/
theorem C2_compose_exact :
    sanitize_filename "AB/CD" = "AB-CD" ∧
    sanitize_filename "Title: One" = "Title - One" ∧
    create_new_title "AB/CD" "Title: One" = "AB-CD - Title - One" := by
  refine ⟨by decide, by decide, by decide⟩

/-- C3, counterexample: for the metadata timestamp
`2023-12-25T23:30:00-05:00` (which is 2023-12-26T04:30 UTC) and an item
dated 2023-12-26, the code's detector reports `dateChanged = true` (it
compares the wall-clock date 2023-12-25), while the claimed
UTC-normalized comparison yields `false` — so the claim's description of
the flag is wrong for non-UTC offsets. -/
theorem C3_counterexample :
    (detect ⟨some "f", "t", "s", some ⟨2023, 12, 26⟩, none⟩
        ⟨"T", "C", "s", "2023-12-25T23:30:00-05:00"⟩).dateChanged = true ∧
    dateChangedSpecUTC ⟨some "f", "t", "s", some ⟨2023, 12, 26⟩, none⟩
        ⟨"T", "C", "s", "2023-12-25T23:30:00-05:00"⟩ = false := by
  refine ⟨by decide, by decide⟩

/-- C3, amended: the detector's `dateChanged` flag is `false` when
`publishedAt` is empty or unparsable; `true` when the item has no date and
a parsed date exists; and otherwise compares the parsed timestamp's
wall-clock calendar date (the UTC offset is ignored, not applied) against
the item's date. -/
theorem C3_dateChanged_wall_clock :
    ∀ (item : PlexItem) (metadata : YTMetadata),
      (detect item metadata).dateChanged = dateChangedWall item metadata := by
  intro item metadata
  rfl

/-- C5: when `resolve` actually consults the provider (the id is not in
the cache) and the provider reports not-found or raises, the result is
`None`, the cache is returned unchanged (in particular no entry is written
for the id and the cache size does not grow). -/
theorem C5_failed_lookup_not_cached :
    ∀ (provider : Provider) (video_id : String) (cache : Cache),
      get_cached_metadata cache video_id = none →
      (provider video_id = .notFound ∨ provider video_id = .apiError) →
      get_youtube_metadata provider video_id cache = (none, cache, [video_id]) ∧
      (get_youtube_metadata provider video_id cache).2.1.length = cache.length := by
  intro provider video_id cache hmiss hfail
  have h : get_youtube_metadata provider video_id cache = (none, cache, [video_id]) := by
    unfold get_youtube_metadata
    rw [hmiss]
    rcases hfail with h | h <;> rw [h]
  exact ⟨h, by rw [h]⟩

/-- C5, witness at a concrete failed lookup. -/
theorem C5_witness :
    get_youtube_metadata (fun _ => ProviderResult.notFound) "dQw4w9WgXcQ" [] =
      (none, [], ["dQw4w9WgXcQ"]) :=
  (C5_failed_lookup_not_cached (fun _ => ProviderResult.notFound) "dQw4w9WgXcQ" []
    rfl (Or.inl rfl)).1

/-- C9: a missing (`None`) or empty file path makes `extract_youtube_id`
return `None` without the no-match warning; for a non-empty path the
warning is emitted exactly when no pattern matches the filename, and when
the warning is emitted the result is `None`. -/
theorem C9_empty_path_silent :
    extract_youtube_id_logged none = (none, false) ∧
    extract_youtube_id_logged (some "") = (none, false) ∧
    ∀ s : String, s.data ≠ [] →
      ((extract_youtube_id_logged (some s)).2 = true ↔
        firstRuleMatch (basenameL s.data) = none) ∧
      ((extract_youtube_id_logged (some s)).2 = true →
        extract_youtube_id (some s) = none) := by
  refine ⟨rfl, rfl, ?_⟩
  intro s hs
  simp only [extract_youtube_id, extract_youtube_id_logged, if_neg hs]
  cases hm : firstRuleMatch (basenameL s.data) with
  | some tok => simp [hm]
  | none => simp [hm]

/-- C9, witness at a concrete non-matching path. -/
theorem C9_witness :
    ((extract_youtube_id_logged (some "video.mp4")).2 = true ↔
      firstRuleMatch (basenameL "video.mp4".data) = none) :=
  (C9_empty_path_silent.2.2 "video.mp4" (by decide)).1

/-! ## Helper lemmas about the pattern scanner -/

theorem takeWhile_append_stop {p : Char → Bool} :
    ∀ (l : List Char) (y : Char) (r : List Char),
      (∀ x ∈ l, p x = true) → p y = false →
      (l ++ y :: r).takeWhile p = l := by
  intro l y r hl hy
  induction l with
  | nil => simp [List.takeWhile, hy]
  | cons c cs ih =>
    have hc : p c = true := hl c (by simp)
    simp only [List.cons_append, List.takeWhile, hc, List.append_eq]
    rw [ih (fun x hx => hl x (by simp [hx]))]

theorem takeWhile_of_all {p : Char → Bool} :
    ∀ l : List Char, (∀ x ∈ l, p x = true) → l.takeWhile p = l := by
  intro l hl
  induction l with
  | nil => rfl
  | cons c cs ih =>
    have hc : p c = true := hl c (by simp)
    simp only [List.takeWhile, hc]
    rw [ih (fun x hx => hl x (by simp [hx]))]

/-- `basenameL` strips everything up to the last slash. -/
theorem basenameL_append_slash (d f : List Char) (hf : '/' ∉ f) :
    basenameL (d ++ '/' :: f) = f := by
  unfold basenameL
  rw [List.reverse_append, List.reverse_cons, List.append_assoc, List.singleton_append]
  rw [takeWhile_append_stop f.reverse '/' d.reverse
        (fun x hx => by
          simp only [List.mem_reverse] at hx
          simp only [decide_eq_true_eq, ne_eq]
          exact fun h => hf (h ▸ hx))
        (by simp)]
  exact List.reverse_reverse f

/-- A slash-free character list is its own basename. -/
theorem basenameL_of_no_slash (f : List Char) (hf : '/' ∉ f) :
    basenameL f = f := by
  unfold basenameL
  rw [takeWhile_of_all f.reverse
        (fun x hx => by
          simp only [List.mem_reverse] at hx
          simp only [decide_eq_true_eq, ne_eq]
          exact fun h => hf (h ▸ hx))]
  exact List.reverse_reverse f

/-- The bracket rule matches leftmost: with no `'['` before it, a
well-formed bracketed token is found by the scan. -/
theorem searchFirst_bracket (a t b : List Char)
    (hlen : t.length = 11) (hall : t.all youtubeIDChar = true) (ha : '[' ∉ a) :
    searchFirst (tryBracketAt '[' ']') (a ++ '[' :: (t ++ ']' :: b)) = some t := by
  induction a with
  | nil =>
    simp only [List.nil_append, searchFirst, tryBracketAt, if_pos rfl]
    have htake : (t ++ ']' :: b).take 11 = t := by
      rw [← hlen]; exact List.take_left t (']' :: b)
    have hdrop : (t ++ ']' :: b).drop 11 = ']' :: b := by
      rw [← hlen]; exact List.drop_left t (']' :: b)
    rw [htake, hdrop]
    simp [hlen, hall]
  | cons c cs ih =>
    have hc : c ≠ '[' := fun h => ha (by simp [h])
    simp only [List.cons_append, searchFirst, tryBracketAt, if_neg hc]
    exact ih (fun h => ha (by simp [h]))

/-- C7: `extract_youtube_id` inspects only the final path segment (a
directory prefix does not change the result); the five rules are applied
in listed order with the earliest matching rule winning; no match yields
`None` (as a value, not an exception); and a filename containing a
well-formed bracketed 11-character token with no `'['` before it yields
exactly that token. -/
theorem C7_extraction_rules :
    (∀ d f : String, '/' ∉ f.data → f.data ≠ [] →
      extract_youtube_id (some (d ++ "/" ++ f)) = extract_youtube_id (some f)) ∧
    (∀ (cs t : List Char),
      searchFirst (tryBracketAt '[' ']') cs = some t → firstRuleMatch cs = some t) ∧
    (∀ (cs t : List Char),
      searchFirst (tryBracketAt '[' ']') cs = none →
      searchFirst (tryBracketAt '(' ')') cs = some t → firstRuleMatch cs = some t) ∧
    (∀ (cs t : List Char),
      searchFirst (tryBracketAt '[' ']') cs = none →
      searchFirst (tryBracketAt '(' ')') cs = none →
      searchFirst (tryUnderscoreExtAt mp4Ext) cs = some t → firstRuleMatch cs = some t) ∧
    (∀ (cs t : List Char),
      searchFirst (tryBracketAt '[' ']') cs = none →
      searchFirst (tryBracketAt '(' ')') cs = none →
      searchFirst (tryUnderscoreExtAt mp4Ext) cs = none →
      searchFirst (tryUnderscoreExtAt mkvExt) cs = some t → firstRuleMatch cs = some t) ∧
    (∀ (cs t : List Char),
      searchFirst (tryBracketAt '[' ']') cs = none →
      searchFirst (tryBracketAt '(' ')') cs = none →
      searchFirst (tryUnderscoreExtAt mp4Ext) cs = none →
      searchFirst (tryUnderscoreExtAt mkvExt) cs = none →
      searchFirst (tryUnderscoreExtAt aviExt) cs = some t → firstRuleMatch cs = some t) ∧
    (∀ s : String, s.data ≠ [] → firstRuleMatch (basenameL s.data) = none →
      extract_youtube_id (some s) = none) ∧
    (∀ (a t b : List Char) (s : String),
      t.length = 11 → t.all youtubeIDChar = true →
      '[' ∉ a → '/' ∉ a → '/' ∉ b →
      s.data = a ++ '[' :: (t ++ ']' :: b) →
      extract_youtube_id (some s) = some ⟨t⟩) := by
  have hfrm1 : ∀ (cs t : List Char),
      searchFirst (tryBracketAt '[' ']') cs = some t → firstRuleMatch cs = some t := by
    intro cs t h1; unfold firstRuleMatch; rw [h1]
  refine ⟨?_, hfrm1, ?_, ?_, ?_, ?_, ?_, ?_⟩
  · -- basename part
    intro d f hf hfne
    have hdata : (d ++ "/" ++ f).data = d.data ++ '/' :: f.data := by
      rw [String.data_append, String.data_append, List.append_assoc]
      rfl
    have hne : d.data ++ '/' :: f.data ≠ [] := by
      intro h; exact absurd (List.append_eq_nil.mp h).2 (by simp)
    simp only [extract_youtube_id, extract_youtube_id_logged, hdata, if_neg hne, if_neg hfne]
    rw [basenameL_append_slash d.data f.data hf, basenameL_of_no_slash f.data hf]
  · intro cs t h1 h2; unfold firstRuleMatch; rw [h1, h2]
  · intro cs t h1 h2 h3; unfold firstRuleMatch; rw [h1, h2, h3]
  · intro cs t h1 h2 h3 h4; unfold firstRuleMatch; rw [h1, h2, h3, h4]
  · intro cs t h1 h2 h3 h4 h5; unfold firstRuleMatch; rw [h1, h2, h3, h4, h5]
  · intro s hne hnm
    simp only [extract_youtube_id, extract_youtube_id_logged, if_neg hne, hnm]
  · intro a t b s hlen hall ha has hbs hdata
    have htno : '/' ∉ t := by
      intro h
      have := List.all_eq_true.mp hall '/' h
      simp [youtubeIDChar] at this
    have hnoslash : '/' ∉ s.data := by
      rw [hdata]
      intro h
      rcases List.mem_append.mp h with h | h
      · exact has h
      · rcases h with _ | h
        rcases List.mem_append.mp (by assumption) with h | h
        · exact htno h
        · rcases h with _ | h
          exact hbs (by assumption)
    have hne : s.data ≠ [] := by
      rw [hdata]; intro h; exact absurd (List.append_eq_nil.mp h).2 (by simp)
    simp only [extract_youtube_id, extract_youtube_id_logged, if_neg hne]
    rw [basenameL_of_no_slash s.data hnoslash, hdata,
        hfrm1 _ t (searchFirst_bracket a t b hlen hall ha)]

/-- C7, witness: a directory prefix is ignored and a bracketed token is
extracted at concrete inputs. -/
theorem C7_witness :
    extract_youtube_id (some ("dir" ++ "/" ++ "v [abcdefghijk].mp4")) =
      extract_youtube_id (some "v [abcdefghijk].mp4") ∧
    extract_youtube_id (some "v [abcdefghijk].mp4") = some "abcdefghijk" :=
  ⟨C7_extraction_rules.1 "dir" "v [abcdefghijk].mp4" (by decide) (by decide),
   C7_extraction_rules.2.2.2.2.2.2.2
     "v ".data "abcdefghijk".data ".mp4".data "v [abcdefghijk].mp4"
     (by decide) (by decide) (by decide) (by decide) (by decide) (by decide)⟩

/-! ## Cache and provider-call-log evolution -/

theorem cacheLookup_cache_metadata (c : Cache) (vid : String) (m : YTMetadata) (id : String) :
    cacheLookup (cache_metadata c vid m) id =
      if vid = id then some m else cacheLookup c id := by
  induction c with
  | nil =>
    simp only [cache_metadata, cacheLookup]
  | cons kv rest ih =>
    obtain ⟨k, v⟩ := kv
    by_cases hk : k = vid
    · subst hk
      by_cases hid : k = id
      · subst hid
        simp [cache_metadata, cacheLookup]
      · simp [cache_metadata, cacheLookup, hid]
    · by_cases hid : k = id
      · subst hid
        have hvk : ¬ vid = k := fun h => hk h.symm
        simp [cache_metadata, cacheLookup, hk, hvk]
      · simp [cache_metadata, cacheLookup, hk, hid, ih]

theorem countOcc_append_single (id : String) (l : List String) (v : String) :
    countOcc id (l ++ [v]) = countOcc id l + (if v = id then 1 else 0) := by
  induction l with
  | nil => simp [countOcc]
  | cons x rest ih => simp [countOcc, ih, Nat.add_assoc]

/-- One loop iteration either leaves the provider-call log and the cache
alone, or issues exactly one call, for an id that was not cached at entry;
when that call succeeds the id's metadata is inserted, otherwise the cache
is unchanged. -/
theorem processItem_log_cases (p : Provider) (dry : Bool) (st : RunState) (item : PlexItem) :
    ((processItem p dry st item).1.providerCallLog = st.providerCallLog ∧
      (processItem p dry st item).1.cache = st.cache) ∨
    (∃ vid,
      (processItem p dry st item).1.providerCallLog = st.providerCallLog ++ [vid] ∧
      get_cached_metadata st.cache vid = none ∧
      ((∃ m, p vid = .found m ∧
          (processItem p dry st item).1.cache = cache_metadata st.cache vid m) ∨
        ((p vid = .notFound ∨ p vid = .apiError) ∧
          (processItem p dry st item).1.cache = st.cache))) := by
  rcases hm : item.mediaFile with _ | fp
  · rw [processItem_no_media p dry st item hm]; exact Or.inl ⟨rfl, rfl⟩
  · rcases he : extract_youtube_id (some fp) with _ | vid
    · rw [processItem_no_id p dry st item fp hm he]; exact Or.inl ⟨rfl, rfl⟩
    · rcases hc : get_cached_metadata st.cache vid with _ | m
      · rcases hp : p vid with m | _ | _
        · rw [processItem_miss_found p dry st item fp vid m hm he hc hp]
          exact Or.inr ⟨vid, rfl, hc, Or.inl ⟨m, hp, rfl⟩⟩
        · rw [processItem_miss_fail p dry st item fp vid hm he hc (Or.inl hp)]
          exact Or.inr ⟨vid, rfl, hc, Or.inr ⟨Or.inl hp, rfl⟩⟩
        · rw [processItem_miss_fail p dry st item fp vid hm he hc (Or.inr hp)]
          exact Or.inr ⟨vid, rfl, hc, Or.inr ⟨Or.inr hp, rfl⟩⟩
      · rw [processItem_hit p dry st item fp vid m hm he hc]
        exact Or.inl ⟨List.append_nil _, rfl⟩

/-- Invariant: an id the provider can resolve is called at most once, and
once called it is in the cache. -/
theorem runLoop_call_bound (p : Provider) (dry : Bool) (id : String) (m : YTMetadata)
    (hp : p id = .found m) :
    ∀ (items : List PlexItem) (st : RunState),
      countOcc id st.providerCallLog ≤ 1 →
      (1 ≤ countOcc id st.providerCallLog → cacheLookup st.cache id ≠ none) →
      countOcc id (runLoop p dry st items).1.providerCallLog ≤ 1 ∧
      (1 ≤ countOcc id (runLoop p dry st items).1.providerCallLog →
        cacheLookup (runLoop p dry st items).1.cache id ≠ none) := by
  intro items
  induction items with
  | nil => intro st h1 h2; exact ⟨h1, h2⟩
  | cons i rest ih =>
    intro st h1 h2
    have hnext : countOcc id (processItem p dry st i).1.providerCallLog ≤ 1 ∧
        (1 ≤ countOcc id (processItem p dry st i).1.providerCallLog →
          cacheLookup (processItem p dry st i).1.cache id ≠ none) := by
      rcases processItem_log_cases p dry st i with ⟨hlog, hcache⟩ | ⟨vid, hlog, hmiss, hsub⟩
      · rw [hlog, hcache]; exact ⟨h1, h2⟩
      · rw [hlog, countOcc_append_single]
        by_cases hv : vid = id
        · subst hv
          have hzero : countOcc vid st.providerCallLog = 0 := by
            by_contra hnz
            exact h2 (by omega) hmiss
          rw [hzero]
          refine ⟨by simp, fun _ => ?_⟩
          rcases hsub with ⟨m', hm', hcache⟩ | ⟨hfail, hcache⟩
          · rw [hcache, cacheLookup_cache_metadata]
            simp
          · rw [hp] at hfail
            rcases hfail with h | h <;> exact absurd h (by simp)
        · rw [if_neg hv, Nat.add_zero]
          refine ⟨h1, fun hge => ?_⟩
          have hlk := h2 hge
          rcases hsub with ⟨m', _, hcache⟩ | ⟨_, hcache⟩
          · rw [hcache, cacheLookup_cache_metadata, if_neg hv]
            exact hlk
          · rw [hcache]; exact hlk
    exact ih (processItem p dry st i).1 hnext.1 hnext.2

/-- C6, counterexample: with a provider that reports not-found, two items
bearing the same id issue two provider calls within one run — after the
first (failed) lookup the cache does not short-circuit the second lookup
of that identifier, because negative results are never cached. -/
theorem C6_counterexample :
    countOcc "abcdefghijk"
      (runLoop emptyProvider false (initState []) [demoItem, demoItem]).1.providerCallLog = 2 := by
  decide

/-- C6, amended: within one run the provider is called at most once for
every identifier it can actually resolve (after the first successful
lookup the cache short-circuits all later lookups); only identifiers
whose lookups fail may be retried. -/
theorem C6_resolvable_called_once :
    ∀ (p : Provider) (dry : Bool) (c0 : Cache) (items : List PlexItem)
      (id : String) (m : YTMetadata),
      p id = .found m →
      countOcc id (runLoop p dry (initState c0) items).1.providerCallLog ≤ 1 := by
  intro p dry c0 items id m hp
  exact (runLoop_call_bound p dry id m hp items (initState c0)
    (by simp [countOcc, initState]) (by simp [countOcc, initState])).1

/-- C6, witness: in the ten-item demo run the resolvable id is fetched at
most once. -/
theorem C6_witness :
    countOcc "abcdefghijk"
      (runLoop demoProvider false (initState []) demoItems).1.providerCallLog ≤ 1 :=
  C6_resolvable_called_once demoProvider false [] demoItems "abcdefghijk" demoMeta rfl

/-! ## The effect of a fully successful mutation sequence -/

theorem runEdits_none_eq : ∀ (edits : List EditCall) (item : PlexItem),
    runEdits item none edits = (edits.foldl applyEdit item, true, edits) := by
  intro edits
  induction edits with
  | nil => intro item; rfl
  | cons e rest ih =>
    intro item
    simp only [runEdits, ih (applyEdit item e), List.foldl_cons]

theorem applyEdit_mediaFile (item : PlexItem) (e : EditCall) :
    (applyEdit item e).mediaFile = item.mediaFile := by
  cases e <;> rfl

theorem applyEdit_editBudget (item : PlexItem) (e : EditCall) :
    (applyEdit item e).editBudget = item.editBudget := by
  cases e <;> rfl

theorem foldl_applyEdit_mediaFile : ∀ (edits : List EditCall) (item : PlexItem),
    (edits.foldl applyEdit item).mediaFile = item.mediaFile := by
  intro edits
  induction edits with
  | nil => intro item; rfl
  | cons e rest ih =>
    intro item
    rw [List.foldl_cons, ih (applyEdit item e), applyEdit_mediaFile]

theorem foldl_applyEdit_editBudget : ∀ (edits : List EditCall) (item : PlexItem),
    (edits.foldl applyEdit item).editBudget = item.editBudget := by
  intro edits
  induction edits with
  | nil => intro item; rfl
  | cons e rest ih =>
    intro item
    rw [List.foldl_cons, ih (applyEdit item e), applyEdit_editBudget]

theorem foldl_applyEdit_title : ∀ (edits : List EditCall) (item : PlexItem),
    (edits.all fun e => !(isTitleEdit e)) = true →
    (edits.foldl applyEdit item).title = item.title := by
  intro edits
  induction edits with
  | nil => intro item _; rfl
  | cons e rest ih =>
    intro item hall
    simp only [List.all_cons, Bool.and_eq_true] at hall
    rw [List.foldl_cons, ih (applyEdit item e) hall.2]
    cases e with
    | editTitle s => simp [isTitleEdit] at hall
    | editSummary s => rfl
    | editDate d => rfl

theorem foldl_applyEdit_summary : ∀ (edits : List EditCall) (item : PlexItem),
    (edits.all fun e => !(isSummaryEdit e)) = true →
    (edits.foldl applyEdit item).summary = item.summary := by
  intro edits
  induction edits with
  | nil => intro item _; rfl
  | cons e rest ih =>
    intro item hall
    simp only [List.all_cons, Bool.and_eq_true] at hall
    rw [List.foldl_cons, ih (applyEdit item e) hall.2]
    cases e with
    | editTitle s => rfl
    | editSummary s => simp [isSummaryEdit] at hall
    | editDate d => rfl

theorem foldl_applyEdit_date : ∀ (edits : List EditCall) (item : PlexItem),
    (edits.all fun e => !(isDateEdit e)) = true →
    (edits.foldl applyEdit item).originallyAvailableAt = item.originallyAvailableAt := by
  intro edits
  induction edits with
  | nil => intro item _; rfl
  | cons e rest ih =>
    intro item hall
    simp only [List.all_cons, Bool.and_eq_true] at hall
    rw [List.foldl_cons, ih (applyEdit item e) hall.2]
    cases e with
    | editTitle s => rfl
    | editSummary s => rfl
    | editDate d => simp [isDateEdit] at hall

/-! ## Reading the change flags -/

theorem title_eq_of_not_changed (item : PlexItem) (m : YTMetadata)
    (h : (detect item m).titleChanged = false) :
    item.title = create_new_title m.channel_name m.title := by
  have h' : decide (item.title ≠ create_new_title m.channel_name m.title) = false := h
  exact not_not.mp (of_decide_eq_false h')

theorem summary_eq_of_not_changed (item : PlexItem) (m : YTMetadata)
    (h : (detect item m).summaryChanged = false) :
    item.summary = m.description := by
  have h' : decide (item.summary ≠ m.description) = false := h
  exact not_not.mp (of_decide_eq_false h')

theorem date_eq_of_not_changed (item : PlexItem) (m : YTMetadata) (dt : PyDatetime)
    (hp : parse_youtube_date m.published_at = some dt)
    (h : (detect item m).dateChanged = false) :
    item.originallyAvailableAt = some dt.toDate := by
  rcases hd : item.originallyAvailableAt with _ | dd
  · have htrue : (detect item m).dateChanged = true := by simp [detect, hp, hd]
    rw [htrue] at h
    cases h
  · have heq : (detect item m).dateChanged = decide (dt.toDate ≠ dd) := by
      simp [detect, hp, hd]
    rw [heq] at h
    exact congrArg some (not_not.mp (of_decide_eq_false h)).symm

theorem titleChanged_false_of_eq (item : PlexItem) (m : YTMetadata)
    (h : item.title = create_new_title m.channel_name m.title) :
    (detect item m).titleChanged = false := by
  show decide (item.title ≠ create_new_title m.channel_name m.title) = false
  exact decide_eq_false (not_not_intro h)

theorem summaryChanged_false_of_eq (item : PlexItem) (m : YTMetadata)
    (h : item.summary = m.description) :
    (detect item m).summaryChanged = false := by
  show decide (item.summary ≠ m.description) = false
  exact decide_eq_false (not_not_intro h)

theorem dateChanged_false_of_hydrated (item : PlexItem) (m : YTMetadata)
    (h : ∀ dt, parse_youtube_date m.published_at = some dt →
      item.originallyAvailableAt = some dt.toDate) :
    (detect item m).dateChanged = false := by
  cases hp : parse_youtube_date m.published_at with
  | none => simp [detect, hp]
  | some dt =>
    have hd := h dt hp
    simp [detect, hp, hd]

/-! ## The hydrated output item -/

theorem plannedEdits_parts (item : PlexItem) (m : YTMetadata) :
    plannedEdits item m =
      (if (detect item m).titleChanged
        then [EditCall.editTitle (create_new_title m.channel_name m.title)] else []) ++
      (if (detect item m).summaryChanged && decide (m.description ≠ "")
        then [EditCall.editSummary m.description] else []) ++
      (match parse_youtube_date m.published_at with
       | some dt => if (detect item m).dateChanged then [EditCall.editDate dt.toDate] else []
       | none => []) := rfl

theorem out_title (item : PlexItem) (m : YTMetadata) :
    ((plannedEdits item m).foldl applyEdit item).title =
      create_new_title m.channel_name m.title := by
  rw [plannedEdits_parts, List.foldl_append, List.foldl_append]
  have hD : ((match parse_youtube_date m.published_at with
       | some dt => if (detect item m).dateChanged then [EditCall.editDate dt.toDate] else []
       | none => []).all fun e => !(isTitleEdit e)) = true := by
    cases hp : parse_youtube_date m.published_at
    · rfl
    · cases hdc : (detect item m).dateChanged <;> rfl
  have hS : ((if (detect item m).summaryChanged && decide (m.description ≠ "")
      then [EditCall.editSummary m.description] else []).all fun e => !(isTitleEdit e)) = true := by
    cases hsc : ((detect item m).summaryChanged && decide (m.description ≠ "")) <;> rfl
  rw [foldl_applyEdit_title _ _ hD, foldl_applyEdit_title _ _ hS]
  cases hT : (detect item m).titleChanged with
  | true => rfl
  | false => exact title_eq_of_not_changed item m hT

theorem out_summary (item : PlexItem) (m : YTMetadata) (hdesc : m.description ≠ "") :
    ((plannedEdits item m).foldl applyEdit item).summary = m.description := by
  rw [plannedEdits_parts, List.foldl_append, List.foldl_append]
  have hD : ((match parse_youtube_date m.published_at with
       | some dt => if (detect item m).dateChanged then [EditCall.editDate dt.toDate] else []
       | none => []).all fun e => !(isSummaryEdit e)) = true := by
    cases hp : parse_youtube_date m.published_at
    · rfl
    · cases hdc : (detect item m).dateChanged <;> rfl
  rw [foldl_applyEdit_summary _ _ hD]
  rcases Bool.eq_false_or_eq_true ((detect item m).summaryChanged) with hsc | hsc
  · have hSval : (if (detect item m).summaryChanged && decide (m.description ≠ "")
        then [EditCall.editSummary m.description] else []) = [EditCall.editSummary m.description] := by
      rw [hsc]
      simp [hdesc]
    rw [hSval, List.foldl_cons, List.foldl_nil]
    rfl
  · have hSval : (if (detect item m).summaryChanged && decide (m.description ≠ "")
        then [EditCall.editSummary m.description] else []) = [] := by
      rw [hsc]
      simp
    rw [hSval, List.foldl_nil]
    have hT : ((if (detect item m).titleChanged
        then [EditCall.editTitle (create_new_title m.channel_name m.title)] else []).all
          fun e => !(isSummaryEdit e)) = true := by
      cases htc : (detect item m).titleChanged <;> rfl
    rw [foldl_applyEdit_summary _ _ hT]
    exact summary_eq_of_not_changed item m hsc

theorem out_date (item : PlexItem) (m : YTMetadata) (dt : PyDatetime)
    (hp : parse_youtube_date m.published_at = some dt) :
    ((plannedEdits item m).foldl applyEdit item).originallyAvailableAt = some dt.toDate := by
  rw [plannedEdits_parts, List.foldl_append, List.foldl_append]
  rcases Bool.eq_false_or_eq_true ((detect item m).dateChanged) with hdc | hdc
  case inl =>
    have hDval : (match parse_youtube_date m.published_at with
        | some dt => if (detect item m).dateChanged then [EditCall.editDate dt.toDate] else []
        | none => []) = [EditCall.editDate dt.toDate] := by
      simp [hp, hdc]
    rw [hDval, List.foldl_cons, List.foldl_nil]
    rfl
  case inr =>
    have hDval : (match parse_youtube_date m.published_at with
        | some dt => if (detect item m).dateChanged then [EditCall.editDate dt.toDate] else []
        | none => []) = [] := by
      simp [hp, hdc]
    rw [hDval, List.foldl_nil]
    have hS : ((if (detect item m).summaryChanged && decide (m.description ≠ "")
        then [EditCall.editSummary m.description] else []).all fun e => !(isDateEdit e)) = true := by
      cases hsc : ((detect item m).summaryChanged && decide (m.description ≠ "")) <;> rfl
    have hT : ((if (detect item m).titleChanged
        then [EditCall.editTitle (create_new_title m.channel_name m.title)] else []).all
          fun e => !(isDateEdit e)) = true := by
      cases htc : (detect item m).titleChanged <;> rfl
    rw [foldl_applyEdit_date _ _ hS, foldl_applyEdit_date _ _ hT]
    exact date_eq_of_not_changed item m dt hp hdc

theorem hydrated_after_apply (item : PlexItem) (m : YTMetadata) :
    Hydrated ((plannedEdits item m).foldl applyEdit item) m :=
  ⟨out_title item m, fun hd => out_summary item m hd, fun dt hp => out_date item m dt hp⟩

theorem plannedEdits_nil_of_no_change (item : PlexItem) (m : YTMetadata)
    (hany : ((detect item m).titleChanged || (detect item m).summaryChanged ||
      (detect item m).dateChanged) = false) :
    plannedEdits item m = [] := by
  simp only [Bool.or_eq_false_iff] at hany
  cases hp : parse_youtube_date m.published_at <;>
    simp [plannedEdits, hp, hany.1.1, hany.1.2, hany.2]

theorem applyStage_item_eq (item : PlexItem) (m : YTMetadata) (hb : item.editBudget = none) :
    (applyStage false item m).1 = (plannedEdits item m).foldl applyEdit item := by
  cases hany : ((detect item m).titleChanged || (detect item m).summaryChanged ||
      (detect item m).dateChanged) with
  | true =>
    simp only [applyStage, Bool.not_false, Bool.true_and, hany, if_true, hb, runEdits_none_eq]
  | false =>
    rw [plannedEdits_nil_of_no_change item m hany, List.foldl_nil]
    simp only [applyStage, Bool.not_false, Bool.true_and, hany, Bool.false_and, if_false]
    rfl

theorem applyStage_hydrated (item : PlexItem) (m : YTMetadata) (hb : item.editBudget = none) :
    (applyStage false item m).1.mediaFile = item.mediaFile ∧
    (applyStage false item m).1.editBudget = none ∧
    Hydrated (applyStage false item m).1 m := by
  rw [applyStage_item_eq item m hb]
  exact ⟨foldl_applyEdit_mediaFile _ _,
    by rw [foldl_applyEdit_editBudget]; exact hb,
    hydrated_after_apply item m⟩

/-- After one live iteration with a fully successful edit budget, the
output item is hydrated or inert with respect to the iteration's cache. -/
theorem processItem_hydrates (p : Provider) (st : RunState) (item : PlexItem)
    (hb : item.editBudget = none) :
    HydratedOrInert p (processItem p false st item).1.cache (processItem p false st item).2 := by
  rcases hm : item.mediaFile with _ | fp
  · rw [processItem_no_media p false st item hm]
    exact Or.inl hm
  · rcases he : extract_youtube_id (some fp) with _ | vid
    · rw [processItem_no_id p false st item fp hm he]
      exact Or.inr (Or.inl ⟨fp, hm, he⟩)
    · rcases hc : get_cached_metadata st.cache vid with _ | m
      · rcases hp : p vid with m | _ | _
        · rw [processItem_miss_found p false st item fp vid m hm he hc hp]
          obtain ⟨h1, _h2, h3⟩ := applyStage_hydrated item m hb
          refine Or.inr (Or.inr (Or.inr ⟨fp, vid, m, ?_, he, ?_, h3⟩))
          · show (applyStage false item m).1.mediaFile = some fp
            rw [h1]; exact hm
          · show cacheLookup (cache_metadata st.cache vid m) vid = some m
            rw [cacheLookup_cache_metadata]
            simp
        · rw [processItem_miss_fail p false st item fp vid hm he hc (Or.inl hp)]
          exact Or.inr (Or.inr (Or.inl ⟨fp, vid, hm, he, hc, Or.inl hp⟩))
        · rw [processItem_miss_fail p false st item fp vid hm he hc (Or.inr hp)]
          exact Or.inr (Or.inr (Or.inl ⟨fp, vid, hm, he, hc, Or.inr hp⟩))
      · rw [processItem_hit p false st item fp vid m hm he hc]
        obtain ⟨h1, _h2, h3⟩ := applyStage_hydrated item m hb
        refine Or.inr (Or.inr (Or.inr ⟨fp, vid, m, ?_, he, hc, h3⟩))
        show (applyStage false item m).1.mediaFile = some fp
        rw [h1]; exact hm

/-! ## Cache evolution across loop steps -/

theorem cacheEvolves_self (p : Provider) (c : Cache) : CacheEvolves p c c :=
  fun _ => ⟨fun _ h => h, fun _ h => Or.inl h⟩

theorem cacheEvolves_trans {p : Provider} {a b c : Cache}
    (h1 : CacheEvolves p a b) (h2 : CacheEvolves p b c) : CacheEvolves p a c := by
  intro id
  refine ⟨fun v hv => (h2 id).1 v ((h1 id).1 v hv), fun v hv => ?_⟩
  rcases (h2 id).2 v hv with hb | hp
  · exact (h1 id).2 v hb
  · exact Or.inr hp

theorem processItem_cache_evolves (p : Provider) (dry : Bool) (st : RunState) (item : PlexItem) :
    CacheEvolves p st.cache (processItem p dry st item).1.cache := by
  rcases processItem_log_cases p dry st item with ⟨_, hcache⟩ | ⟨vid, _, hmiss, hsub⟩
  · rw [hcache]; exact cacheEvolves_self p st.cache
  · rcases hsub with ⟨m', hm', hcache⟩ | ⟨_, hcache⟩
    · rw [hcache]
      intro id
      constructor
      · intro v hv
        rw [cacheLookup_cache_metadata]
        by_cases hvi : vid = id
        · subst hvi
          rw [show cacheLookup st.cache vid = none from hmiss] at hv
          cases hv
        · rw [if_neg hvi]; exact hv
      · intro v hv
        rw [cacheLookup_cache_metadata] at hv
        by_cases hvi : vid = id
        · rw [if_pos hvi] at hv
          injection hv with hmv
          subst hvi
          exact Or.inr (hmv ▸ hm')
        · rw [if_neg hvi] at hv
          exact Or.inl hv
    · rw [hcache]; exact cacheEvolves_self p st.cache

theorem runLoop_cache_evolves (p : Provider) (dry : Bool) :
    ∀ (items : List PlexItem) (st : RunState),
      CacheEvolves p st.cache (runLoop p dry st items).1.cache
  | [], st => cacheEvolves_self p st.cache
  | i :: rest, st =>
    cacheEvolves_trans (processItem_cache_evolves p dry st i)
      (runLoop_cache_evolves p dry rest (processItem p dry st i).1)

theorem hydratedOrInert_mono (p : Provider) {c c' : Cache}
    (hev : CacheEvolves p c c') (item : PlexItem) :
    HydratedOrInert p c item → HydratedOrInert p c' item := by
  intro h
  rcases h with h | h | ⟨fp, vid, hm, he, hc, hfail⟩ | ⟨fp, vid, m, hm, he, hc, hh⟩
  · exact Or.inl h
  · exact Or.inr (Or.inl h)
  · refine Or.inr (Or.inr (Or.inl ⟨fp, vid, hm, he, ?_, hfail⟩))
    rcases hl : cacheLookup c' vid with _ | v
    · rfl
    · rcases (hev vid).2 v hl with hcv | hpv
      · rw [hc] at hcv; cases hcv
      · rcases hfail with hf | hf <;> (rw [hf] at hpv; cases hpv)
  · exact Or.inr (Or.inr (Or.inr ⟨fp, vid, m, hm, he, (hev vid).1 m hc, hh⟩))

/-- Every output item of a live run whose items have a fully successful
edit budget is hydrated or inert with respect to the run's final cache. -/
theorem runLoop_hydrates (p : Provider) :
    ∀ (items : List PlexItem) (st : RunState),
      (∀ i ∈ items, i.editBudget = none) →
      ∀ out ∈ (runLoop p false st items).2,
        HydratedOrInert p (runLoop p false st items).1.cache out := by
  intro items
  induction items with
  | nil =>
    intro st _ out hout
    cases hout
  | cons i rest ih =>
    intro st hb out hout
    rcases List.mem_cons.mp hout with rfl | hmem
    · exact hydratedOrInert_mono p
        (runLoop_cache_evolves p false rest (processItem p false st i).1) _
        (processItem_hydrates p st i (hb i (List.mem_cons_self i rest)))
    · exact ih (processItem p false st i).1
        (fun j hj => hb j (List.mem_cons_of_mem i hj)) out hmem

/-! ## A hydrated-or-inert library induces no further mutations -/

theorem plannedEdits_nil_of_hydrated (item : PlexItem) (m : YTMetadata)
    (hh : Hydrated item m) : plannedEdits item m = [] := by
  have hT := titleChanged_false_of_eq item m hh.1
  have hD := dateChanged_false_of_hydrated item m hh.2.2
  have hScond : ((detect item m).summaryChanged && decide (m.description ≠ "")) = false := by
    by_cases hdesc : m.description = ""
    · simp [hdesc]
    · rw [summaryChanged_false_of_eq item m (hh.2.1 hdesc)]
      simp
  have hTval : (if (detect item m).titleChanged
      then [EditCall.editTitle (create_new_title m.channel_name m.title)] else []) =
        ([] : List EditCall) := by
    rw [hT]
    rfl
  have hSval : (if (detect item m).summaryChanged && decide (m.description ≠ "")
      then [EditCall.editSummary m.description] else []) = ([] : List EditCall) := by
    rw [hScond]
    rfl
  have hDval : (match parse_youtube_date m.published_at with
      | some dt => if (detect item m).dateChanged then [EditCall.editDate dt.toDate] else []
      | none => []) = ([] : List EditCall) := by
    cases hp : parse_youtube_date m.published_at with
    | none => rfl
    | some dt =>
      show (if (detect item m).dateChanged = true
        then [EditCall.editDate dt.toDate] else []) = ([] : List EditCall)
      rw [hD]
      rfl
  rw [plannedEdits_parts, hTval, hSval, hDval]
  rfl

theorem applyStage_issued_nil (item : PlexItem) (m : YTMetadata)
    (hedits : plannedEdits item m = []) :
    (applyStage false item m).2.2.2 = [] := by
  rcases Bool.eq_false_or_eq_true ((detect item m).titleChanged ||
      (detect item m).summaryChanged || (detect item m).dateChanged) with hany | hany
  · simp only [applyStage, Bool.not_false, Bool.true_and, hany, if_true, hedits, runEdits_nil]
  · simp only [applyStage, Bool.not_false, Bool.true_and, hany, Bool.false_and, if_false]
    rfl

/-- One live iteration over a hydrated-or-inert item issues no mutation
call, and any decision it records has the title and date flags false. -/
theorem processItem_inert_effects (p : Provider) (st : RunState) (item : PlexItem)
    (h : HydratedOrInert p st.cache item) :
    (processItem p false st item).1.editCallLog = st.editCallLog ∧
    (∀ d ∈ (processItem p false st item).1.decisionLog,
      d ∈ st.decisionLog ∨ (d.titleChanged = false ∧ d.dateChanged = false)) := by
  rcases h with hm | ⟨fp, hm, he⟩ | ⟨fp, vid, hm, he, hc, hfail⟩ | ⟨fp, vid, m, hm, he, hc, hh⟩
  · rw [processItem_no_media p false st item hm]
    exact ⟨rfl, fun d hd => Or.inl hd⟩
  · rw [processItem_no_id p false st item fp hm he]
    exact ⟨rfl, fun d hd => Or.inl hd⟩
  · rw [processItem_miss_fail p false st item fp vid hm he hc hfail]
    exact ⟨rfl, fun d hd => Or.inl hd⟩
  · rw [processItem_hit p false st item fp vid m hm he hc]
    have hT := titleChanged_false_of_eq item m hh.1
    have hD := dateChanged_false_of_hydrated item m hh.2.2
    have hedits := plannedEdits_nil_of_hydrated item m hh
    constructor
    · show st.editCallLog ++ (applyStage false item m).2.2.2 = st.editCallLog
      rw [applyStage_issued_nil item m hedits, List.append_nil]
    · intro d hd
      rcases List.mem_append.mp hd with hold | hnew
      · exact Or.inl hold
      · have hdd : d = detect item m := List.mem_singleton.mp hnew
        subst hdd
        exact Or.inr ⟨hT, hD⟩

theorem runLoop_inert (p : Provider) :
    ∀ (items : List PlexItem) (st : RunState),
      (∀ i ∈ items, HydratedOrInert p st.cache i) →
      (runLoop p false st items).1.editCallLog = st.editCallLog ∧
      (∀ d ∈ (runLoop p false st items).1.decisionLog,
        d ∈ st.decisionLog ∨ (d.titleChanged = false ∧ d.dateChanged = false)) := by
  intro items
  induction items with
  | nil => intro st _; exact ⟨rfl, fun d hd => Or.inl hd⟩
  | cons i rest ih =>
    intro st h
    have hstep := processItem_inert_effects p st i (h i (List.mem_cons_self i rest))
    have hrest : ∀ j ∈ rest, HydratedOrInert p (processItem p false st i).1.cache j :=
      fun j hj => hydratedOrInert_mono p (processItem_cache_evolves p false st i) j
        (h j (List.mem_cons_of_mem i hj))
    have hmain := ih (processItem p false st i).1 hrest
    refine ⟨hmain.1.trans hstep.1, fun d hd => ?_⟩
    rcases hmain.2 d hd with hin | hgood
    · rcases hstep.2 d hin with hin' | hgood'
      · exact Or.inl hin'
      · exact Or.inr hgood'
    · exact Or.inr hgood

/-- C4, counterexample: running the orchestrator twice in live mode over a
one-item library whose provider description is empty and whose item has a
non-empty summary — the second run, started from the first run's final
cache over the first run's output items, records the decision
`⟨false, true, false⟩`: its `summaryChanged` flag is `true`, not `false`
as claimed (the empty description is detected as a difference but never
applied, so it stays different forever). -/
theorem C4_counterexample :
    (runLoop provC4 false
        (initState (runLoop provC4 false (initState []) [itemC4]).1.cache)
        (runLoop provC4 false (initState []) [itemC4]).2).1.decisionLog =
      [⟨false, true, false⟩] := by
  decide

/-- C4, amended: running the orchestrator twice in immediate succession in
live mode over the same library, with provider data unchanged and every
mutation call succeeding, yields zero field mutation calls on the second
run, and every Decision of the second run has `titleChanged = false` and
`dateChanged = false`; `summaryChanged` alone may remain `true`, exactly
for items whose provider description is empty while their summary is
non-empty, and even then no mutation is issued for them. -/
theorem C4_second_run_idle :
    ∀ (p : Provider) (c0 : Cache) (items : List PlexItem),
      (∀ i ∈ items, i.editBudget = none) →
      (runLoop p false (initState (runLoop p false (initState c0) items).1.cache)
        (runLoop p false (initState c0) items).2).1.editCallLog = [] ∧
      ∀ d ∈ (runLoop p false (initState (runLoop p false (initState c0) items).1.cache)
          (runLoop p false (initState c0) items).2).1.decisionLog,
        d.titleChanged = false ∧ d.dateChanged = false := by
  intro p c0 items hb
  have hout := runLoop_hydrates p items (initState c0) hb
  have h2 := runLoop_inert p (runLoop p false (initState c0) items).2
    (initState (runLoop p false (initState c0) items).1.cache)
    (fun i hi => hout i hi)
  refine ⟨h2.1, fun d hd => ?_⟩
  rcases h2.2 d hd with hin | hgood
  · cases hin
  · exact hgood

/-- C4, witness: the two-run composition applied to the one-item library
of the counterexample — the second run issues no mutation call. -/
theorem C4_witness :
    (runLoop provC4 false
        (initState (runLoop provC4 false (initState []) [itemC4]).1.cache)
        (runLoop provC4 false (initState []) [itemC4]).2).1.editCallLog = [] :=
  (C4_second_run_idle provC4 [] [itemC4] (by decide)).1

end PlexTools
